import Mathlib

/-!
Shallow embedding of the coordinate-transform-and-animation math layer of
the wwt-webgl-engine repository (engine-xr): `src/engine-xr/src/math/AstroMath.ts`
(coordinate converters, slerp, great-circle geometry, the camera animation
state machine and chain) and `src/engine-xr/src/math/WWTCompat.ts` (the
legacy row-major / Babylon column-major bridge).

Modelling conventions:
* JS `number` scalars are modelled as real numbers `ℝ`.  Floating-point
  rounding is out of scope; the special values produced by division by zero
  (`Infinity`, `-Infinity`, `NaN`) ARE modelled where they are reachable,
  namely in the animator's `progress = min(elapsed / duration, 1)` pipeline,
  via the type `JSNum` below.
* Babylon.js `Vector3` is the structure `Vec3`.  Babylon's `normalize()`
  and `scaleInPlace()` mutate the receiver; functions of the source that
  mutate an argument or a stored vector are modelled in state-passing style:
  they return the mutated object's new value alongside their result.
  Babylon's `Vector3.Dot`, `Vector3.Lerp`, `add`, `subtract`, `scale`
  allocate fresh vectors and are modelled as pure functions.
* Babylon easing objects are stateless maps `ℝ → ℝ`; the animator's private
  `easingFunction` field is modelled as a function field `ease`.  No claim
  depends on the specific easing curve, so theorems quantify over it.
-/

/-- Babylon.js Vector2: an (x, y) pair of reals. -/
structure Vec2 where
  x : ℝ
  y : ℝ


/-- Babylon.js Vector3: an (x, y, z) triple of reals. -/
structure Vec3 where
  x : ℝ
  y : ℝ
  z : ℝ


namespace Vec3

/-- `Vector3.Dot(v1, v2)`. -/
def dot (v1 v2 : Vec3) : ℝ :=
  v1.x * v2.x + v1.y * v2.y + v1.z * v2.z

/-- `v.length()` = `Math.sqrt(x*x + y*y + z*z)`. -/
noncomputable def length (v : Vec3) : ℝ :=
  Real.sqrt (v.x ^ 2 + v.y ^ 2 + v.z ^ 2)

/-- `v.scale(k)` (also the value computed by `scaleInPlace`). -/
def scale (v : Vec3) (k : ℝ) : Vec3 :=
  ⟨v.x * k, v.y * k, v.z * k⟩

/-- `a.add(b)`. -/
def add (a b : Vec3) : Vec3 :=
  ⟨a.x + b.x, a.y + b.y, a.z + b.z⟩

/-- `a.subtract(b)`. -/
def subtract (a b : Vec3) : Vec3 :=
  ⟨a.x - b.x, a.y - b.y, a.z - b.z⟩

/-- `Vector3.Lerp(v1, v2, t)`: componentwise `v1 + (v2 - v1) * t`. -/
def lerp (v1 v2 : Vec3) (t : ℝ) : Vec3 :=
  ⟨v1.x + (v2.x - v1.x) * t,
   v1.y + (v2.y - v1.y) * t,
   v1.z + (v2.z - v1.z) * t⟩

/-- Babylon's `v.normalize()` (value of the mutated receiver):
`normalizeFromLength(len)` returns the vector unchanged when `len` is 0 or 1,
and otherwise scales by `1 / len`. -/
noncomputable def normalize (v : Vec3) : Vec3 :=
  if v.length = 0 ∨ v.length = 1 then v else v.scale (1 / v.length)

end Vec3

/-- `MathConstants.DEG_TO_RAD` from BabylonMath.ts. -/
noncomputable def DEG_TO_RAD : ℝ := Real.pi / 180

/-- `MathConstants.RAD_TO_DEG` from BabylonMath.ts. -/
noncomputable def RAD_TO_DEG : ℝ := 180 / Real.pi

/-- JS `Math.atan2(y, x)`: the argument of the complex number `x + y·i`,
with `atan2(0, 0) = 0` and range `(-π, π]`. -/
noncomputable def atan2 (y x : ℝ) : ℝ :=
  Complex.arg ⟨x, y⟩

/-- `geoTo3D(lat, lng, radius)` from AstroMath.ts. -/
noncomputable def geoTo3D (lat lng radius : ℝ) : Vec3 :=
  let latRad := lat * DEG_TO_RAD
  let lngRad := lng * DEG_TO_RAD
  ⟨Real.cos lngRad * Real.cos latRad * radius,
   Real.sin latRad * radius,
   Real.sin lngRad * Real.cos latRad * radius⟩

/-- The longitude-folding snippet inside `cartesianToSpherical`
(source comment: "Normalize longitude to [-180, 180]"):
`if (lng > 180) lng = -180 + (180 - lng)`. -/
noncomputable def normalizeLng (lng : ℝ) : ℝ :=
  if lng > 180 then -180 + (180 - lng) else lng

/-- `cartesianToSpherical(vec)` from AstroMath.ts: returns
`(x := latitude in degrees, y := longitude in degrees)`;
the zero vector maps to `(0, 0)`. -/
noncomputable def cartesianToSpherical (vec : Vec3) : Vec2 :=
  let rho := vec.length
  if rho = 0 then ⟨0, 0⟩
  else
    let longitude := atan2 vec.z vec.x
    let latitude := Real.arcsin (vec.y / rho)
    let lat := latitude * RAD_TO_DEG
    let lng := longitude * RAD_TO_DEG
    ⟨lat, normalizeLng lng⟩

/-- `slerp(v1, v2, t)` from AstroMath.ts.  All intermediate vectors are
fresh allocations in the source; the in-place `normalize()` calls there act
on those fresh vectors only, so the function is pure in its arguments. -/
noncomputable def slerp (v1 v2 : Vec3) (t : ℝ) : Vec3 :=
  let d := Vec3.dot v1 v2
  if d > 0.9995 then
    (Vec3.lerp v1 v2 t).normalize
  else
    let clampedDot := max (-1) (min 1 d)
    let theta := Real.arccos clampedDot * t
    let relative := (v2.subtract (v1.scale clampedDot)).normalize
    (v1.scale (Real.cos theta)).add (relative.scale (Real.sin theta))

/-- `sphericalMidpoint(lat1, lng1, lat2, lng2)` from AstroMath.ts. -/
noncomputable def sphericalMidpoint (lat1 lng1 lat2 lng2 : ℝ) : Vec2 :=
  let p1 := geoTo3D lat1 lng1 1
  let p2 := geoTo3D lat2 lng2 1
  let midpoint := ((p1.add p2).scale 0.5).normalize
  cartesianToSpherical midpoint

/-- JS remainder `a % b` for the nonnegative dividend produced in
`cartesianToAzAlt` (where truncation and floor agree). -/
noncomputable def jsRem (a b : ℝ) : ℝ :=
  a - b * ↑⌊a / b⌋

/-- `cartesianToAzAlt(vec)` from AstroMath.ts.  The source's
`const normalized = vec.normalize()` normalizes `vec` IN PLACE (Babylon
semantics), so the call mutates its argument; the second component of the
returned pair is the argument's value after the call. -/
noncomputable def cartesianToAzAlt (vec : Vec3) : Vec2 × Vec3 :=
  let normalized := vec.normalize
  let azimuth := jsRem (atan2 normalized.x normalized.z * RAD_TO_DEG + 360) 360
  let altitude := Real.arcsin normalized.y * RAD_TO_DEG
  (⟨azimuth, altitude⟩, normalized)

/-! ### WWTCompat.ts: the legacy vector/matrix compatibility bridge -/

/-- A JS `number` restricted to the values reachable in the animator's
`progress` computation: a finite real, `Infinity`, `-Infinity`, or `NaN`. -/
inductive JSNum where
  | num (r : ℝ)
  | posInf
  | negInf
  | nan

/-- JS division `a / b` on finite operands: `0 / 0 = NaN` and
`a / 0 = ±Infinity` for `a ≠ 0`. -/
noncomputable def jsDiv (a b : ℝ) : JSNum :=
  if b = 0 then
    if a = 0 then .nan else if a > 0 then .posInf else .negInf
  else .num (a / b)

/-- JS `Math.min(x, 1.0)`: `NaN` propagates; `Infinity` caps at 1. -/
noncomputable def jsMin1 : JSNum → JSNum
  | .num r => .num (min r 1)
  | .posInf => .num 1
  | .negInf => .negInf
  | .nan => .nan

/-- The JS comparison `x >= 1.0`: false on `NaN`. -/
noncomputable def JSNum.ge1 : JSNum → Bool
  | .num r => decide (1 ≤ r)
  | .posInf => true
  | .negInf => false
  | .nan => false

/-- The finite value of a `JSNum`.  Non-finite progress values (reachable
only when `duration = 0`) would poison the eased interpolants with `NaN` in
the source; those interpolant values are not modelled (no claim depends on
them) and this projection maps the non-finite cases to 0. -/
def JSNum.val : JSNum → ℝ
  | .num r => r
  | _ => 0

/-! ### CameraAnimation.ts: the camera animation state machine -/

/-- `CameraAnimationConfig`: optional fields are `Option`s (a Babylon
vector object is always truthy, so `startTarget && endTarget` in the source
is exactly "both present"). -/
structure CameraAnimationConfig where
  startPosition : Vec3
  endPosition : Vec3
  startTarget : Option Vec3
  endTarget : Option Vec3
  duration : ℝ
  useSphericalInterpolation : Bool

/-- The object returned by `update()`: current position and optional
look-at target. -/
structure Frame where
  position : Vec3
  target : Option Vec3

/-- The `CameraAnimator` instance state: the stored (mutable in the
source) config object, the run state, and the easing function chosen at
construction. -/
structure CameraAnimator where
  config : CameraAnimationConfig
  startTime : ℝ
  currentTime : ℝ
  isAnimating : Bool
  ease : ℝ → ℝ

namespace CameraAnimator

/-- `start()`: captures the clock (`now` stands for `performance.now()`),
resets elapsed time, and sets the running flag. -/
def start (a : CameraAnimator) (now : ℝ) : CameraAnimator :=
  { a with startTime := now, currentTime := 0, isAnimating := true }

/-- `stop()`: clears the running flag. -/
def stop (a : CameraAnimator) : CameraAnimator :=
  { a with isAnimating := false }

/-- The `progress` getter: 1.0 when not running, else
`Math.min(currentTime / duration, 1.0)`. -/
noncomputable def progress (a : CameraAnimator) : JSNum :=
  if a.isAnimating then jsMin1 (jsDiv a.currentTime a.config.duration)
  else .num 1

end CameraAnimator

/-- The position-interpolation block of `update()` (lines "Interpolate
position").  In the spherical branch the source normalizes
`config.startPosition` and `config.endPosition` IN PLACE and then reads
their lengths (hence of the already-normalized vectors); the returned
config carries the mutation. -/
noncomputable def interpPosition (cfg : CameraAnimationConfig) (easedProgress : ℝ) :
    Vec3 × CameraAnimationConfig :=
  if cfg.useSphericalInterpolation then
    let ns := cfg.startPosition.normalize
    let ne := cfg.endPosition.normalize
    let p := slerp ns ne easedProgress
    let startDist := ns.length
    let endDist := ne.length
    let dist := startDist + (endDist - startDist) * easedProgress
    (p.scale dist, { cfg with startPosition := ns, endPosition := ne })
  else
    (Vec3.lerp cfg.startPosition cfg.endPosition easedProgress, cfg)

/-- The target-interpolation block of `update()` (lines "Interpolate
target if specified"): runs only when both targets are present; the
spherical branch normalizes both stored targets in place. -/
noncomputable def interpTarget (cfg : CameraAnimationConfig) (easedProgress : ℝ) :
    Option Vec3 × CameraAnimationConfig :=
  match cfg.startTarget, cfg.endTarget with
  | some st, some et =>
    if cfg.useSphericalInterpolation then
      let nst := st.normalize
      let net := et.normalize
      (some (slerp nst net easedProgress),
       { cfg with startTarget := some nst, endTarget := some net })
    else
      (some (Vec3.lerp st et easedProgress), cfg)
  | _, _ => (none, cfg)

/-- `update()` from CameraAnimation.ts, in state-passing style:
given the current clock `now`, returns the result (`null` ↦ `none`) and
the animator's new state.  The body follows the source line by line:
early return when not running; `currentTime = now - startTime`;
`progress = min(currentTime / duration, 1)` with JS division semantics;
easing; the two interpolation blocks; then the finish check, which returns
the (possibly just-mutated) stored end position/target. -/
noncomputable def CameraAnimator.update (a : CameraAnimator) (now : ℝ) :
    Option Frame × CameraAnimator :=
  if a.isAnimating then
    let currentTime := now - a.startTime
    let progress := jsMin1 (jsDiv currentTime a.config.duration)
    let easedProgress := a.ease progress.val
    let pc := interpPosition a.config easedProgress
    let tc := interpTarget pc.2 easedProgress
    if progress.ge1 then
      (some ⟨tc.2.endPosition, tc.2.endTarget⟩,
       ⟨tc.2, a.startTime, currentTime, false, a.ease⟩)
    else
      (some ⟨pc.1, tc.1⟩, ⟨tc.2, a.startTime, currentTime, true, a.ease⟩)
  else
    (none, a)

/-! ### CameraAnimationChain -/

/-- `CameraAnimationChain`: the ordered animator list and the cursor. -/
structure CameraAnimationChain where
  animations : List CameraAnimator
  currentIndex : ℕ

namespace CameraAnimationChain

/-- Chain `start()`: when non-empty, reset the cursor and start the first
animator (mutating it in the stored list). -/
def start (c : CameraAnimationChain) (now : ℝ) : CameraAnimationChain :=
  match c.animations with
  | [] => c
  | a :: rest => ⟨a.start now :: rest, 0⟩

/-- Chain `update()`: delegates to the animator at the cursor; when that
animator returns `null` and is not last, advances the cursor, starts the
new current animator and recurses for its first frame.  The source guard
`currentIndex < animations.length - 1` is written here as
`currentIndex + 1 < animations.length` (equivalent over ℕ given the
in-range check that precedes it). -/
noncomputable def update (c : CameraAnimationChain) (now : ℝ) :
    Option Frame × CameraAnimationChain :=
  if h : c.currentIndex < c.animations.length then
    let current := c.animations.get ⟨c.currentIndex, h⟩
    let r := current.update now
    let c1 : CameraAnimationChain := ⟨c.animations.set c.currentIndex r.2, c.currentIndex⟩
    match r.1 with
    | some s => (some s, c1)
    | none =>
      if h2 : c.currentIndex + 1 < c.animations.length then
        let nxt := c.animations.get ⟨c.currentIndex + 1, h2⟩
        let c2 : CameraAnimationChain :=
          ⟨(c.animations.set c.currentIndex r.2).set (c.currentIndex + 1) (nxt.start now),
           c.currentIndex + 1⟩
        c2.update now
      else
        (none, c1)
  else
    (none, c)
termination_by c.animations.length - c.currentIndex
decreasing_by simp only [List.length_set]; omega

/-- The chain's `active` getter. -/
def active (c : CameraAnimationChain) : Bool :=
  if h : c.currentIndex < c.animations.length then
    (c.animations.get ⟨c.currentIndex, h⟩).isAnimating
  else
    false

end CameraAnimationChain

/-! ### Concrete instances used by counterexamples and witnesses -/

/-- A spherical-interpolation animator with non-unit end position
`(0, 0, 2)`, running from clock 0 with duration 1000 and identity easing. -/
noncomputable def sphericalEndAnimator : CameraAnimator :=
  ⟨⟨⟨1, 0, 0⟩, ⟨0, 0, 2⟩, none, none, 1000, true⟩, 0, 0, true, fun r => r⟩

/-- A spherical-interpolation animator with non-unit start position
`(2, 0, 0)`, running from clock 0 with duration 1000 and identity easing. -/
noncomputable def sphericalStartAnimator : CameraAnimator :=
  ⟨⟨⟨2, 0, 0⟩, ⟨0, 0, 2⟩, none, none, 1000, true⟩, 0, 0, true, fun r => r⟩

/-- A linear animator with duration -1 (the spec's §8 endpoints), idle. -/
noncomputable def negDurationAnimator : CameraAnimator :=
  ⟨⟨⟨0, 0, 10⟩, ⟨10, 0, 10⟩, none, none, -1, false⟩, 0, 0, false, fun r => r⟩

/-- A linear animator with duration 0, idle. -/
noncomputable def zeroDurationAnimator : CameraAnimator :=
  ⟨⟨⟨0, 0, 10⟩, ⟨10, 0, 10⟩, none, none, 0, false⟩, 0, 0, false, fun r => r⟩

/-- A linear animator with the spec's §8 endpoints and duration 1000,
running from clock 0. -/
noncomputable def linearSpecAnimator : CameraAnimator :=
  ⟨⟨⟨0, 0, 10⟩, ⟨10, 0, 10⟩, none, none, 1000, false⟩, 0, 0, true, fun r => r⟩

/-- A two-element chain: a finished copy of the linear animator followed
by an idle one. -/
noncomputable def twoSegmentChain : CameraAnimationChain :=
  ⟨[⟨⟨⟨0, 0, 10⟩, ⟨10, 0, 10⟩, none, none, 1000, false⟩, 0, 1000, false, fun r => r⟩,
    ⟨⟨⟨10, 0, 10⟩, ⟨20, 0, 10⟩, none, none, 1000, false⟩, 0, 0, false, fun r => r⟩], 0⟩

/-! ## Helper lemmas -/

theorem Vec3.length_nonneg (v : Vec3) : 0 ≤ v.length :=
  Real.sqrt_nonneg _

theorem Vec3.sq_length (v : Vec3) : v.length ^ 2 = v.x ^ 2 + v.y ^ 2 + v.z ^ 2 :=
  Real.sq_sqrt (by positivity)

theorem Vec3.length_eq_one_iff (v : Vec3) :
    v.length = 1 ↔ v.x ^ 2 + v.y ^ 2 + v.z ^ 2 = 1 := by
  unfold Vec3.length
  exact Real.sqrt_eq_one

theorem Vec3.length_scale (v : Vec3) (k : ℝ) :
    (v.scale k).length = |k| * v.length := by
  unfold Vec3.length Vec3.scale
  simp only
  rw [show (v.x * k) ^ 2 + (v.y * k) ^ 2 + (v.z * k) ^ 2
        = k ^ 2 * (v.x ^ 2 + v.y ^ 2 + v.z ^ 2) by ring,
      Real.sqrt_mul (sq_nonneg k), Real.sqrt_sq_eq_abs]

theorem Vec3.scale_one (v : Vec3) : v.scale 1 = v := by
  obtain ⟨x, y, z⟩ := v
  simp [Vec3.scale]

theorem Vec3.normalize_eq_scale (v : Vec3) (h : v.length ≠ 0) :
    v.normalize = v.scale (1 / v.length) := by
  unfold Vec3.normalize
  rcases eq_or_ne v.length 1 with h1 | h1
  · rw [if_pos (Or.inr h1), h1]
    simp [Vec3.scale_one]
  · rw [if_neg (by tauto)]

theorem Vec3.length_normalize (v : Vec3) (h : v.length ≠ 0) :
    v.normalize.length = 1 := by
  have hpos : 0 < v.length := lt_of_le_of_ne v.length_nonneg (Ne.symm h)
  rw [Vec3.normalize_eq_scale v h, Vec3.length_scale,
      abs_of_pos (by positivity : (0:ℝ) < 1 / v.length)]
  field_simp

theorem Vec3.length_zero_vec : (Vec3.mk 0 0 0).length = 0 := by
  simp [Vec3.length]

theorem Vec3.normalize_zero_vec : (Vec3.mk 0 0 0).normalize = Vec3.mk 0 0 0 := by
  unfold Vec3.normalize
  rw [if_pos (Or.inl Vec3.length_zero_vec)]

/-! ## Claims -/

/-- Claim C9 (supporting theorem for the code bug): the folding formula
`-180 + (180 - value)` of `cartesianToSpherical` maps 190 to -190, which
is outside the `[-180, 180]` range promised by the source comment and is
not `190 - 360 = -170` as the claim asserts. -/
theorem normalizeLng_formula_wrong :
    normalizeLng 190 = -190 ∧ normalizeLng 190 ≠ 190 - 360 := by
  unfold normalizeLng
  rw [if_pos (by norm_num : (190:ℝ) > 180)]
  norm_num

/-- Claim C10: whenever the two 3D embeddings sum to the zero vector
(exactly antipodal inputs), `sphericalMidpoint` returns latitude 0 and
longitude 0: normalizing the zero-length average leaves the zero vector
and `cartesianToSpherical` maps the zero vector to `(0, 0)`. -/
theorem sphericalMidpoint_antipodal (lat1 lng1 lat2 lng2 : ℝ)
    (h : (geoTo3D lat1 lng1 1).add (geoTo3D lat2 lng2 1) = Vec3.mk 0 0 0) :
    sphericalMidpoint lat1 lng1 lat2 lng2 = Vec2.mk 0 0 := by
  unfold sphericalMidpoint
  simp only [h]
  have hs : (Vec3.mk 0 0 0).scale 0.5 = Vec3.mk 0 0 0 := by
    simp [Vec3.scale]
  rw [hs, Vec3.normalize_zero_vec]
  unfold cartesianToSpherical
  rw [if_pos Vec3.length_zero_vec]

/-- Witness for C10: the poles `(90, 0)` and `(-90, 0)` embed to
`(0, 1, 0)` and `(0, -1, 0)`, which sum to zero, and their midpoint is
`(0, 0)`. -/
theorem sphericalMidpoint_antipodal_witness :
    (geoTo3D 90 0 1).add (geoTo3D (-90) 0 1) = Vec3.mk 0 0 0 ∧
    sphericalMidpoint 90 0 (-90) 0 = Vec2.mk 0 0 := by
  have h : (geoTo3D 90 0 1).add (geoTo3D (-90) 0 1) = Vec3.mk 0 0 0 := by
    unfold geoTo3D Vec3.add DEG_TO_RAD
    simp only
    rw [show (90:ℝ) * (Real.pi / 180) = Real.pi / 2 by ring,
        show (-90:ℝ) * (Real.pi / 180) = -(Real.pi / 2) by ring]
    simp [Real.cos_pi_div_two, Real.sin_pi_div_two]
  exact ⟨h, sphericalMidpoint_antipodal 90 0 (-90) 0 h⟩

/-- Unfolded form of `geoTo3D`. -/
theorem geoTo3D_eq (lat lng radius : ℝ) :
    geoTo3D lat lng radius =
      Vec3.mk (Real.cos (lng * DEG_TO_RAD) * Real.cos (lat * DEG_TO_RAD) * radius)
        (Real.sin (lat * DEG_TO_RAD) * radius)
        (Real.sin (lng * DEG_TO_RAD) * Real.cos (lat * DEG_TO_RAD) * radius) :=
  rfl

/-- Supporting lemma: for `lat` strictly inside `(-90, 90)` and
`lng ∈ (-180, 180]`, `cartesianToSpherical (geoTo3D lat lng 1)` reproduces
`(lat, lng)` exactly in real arithmetic, hence within 1e-9.  This covers
the interior of the round-trip's domain only: at the poles the exact-real
model and the double-precision program part ways (see the next lemma). -/
theorem cartesianToSpherical_geoTo3D_roundtrip (lat lng : ℝ)
    (h1 : -90 < lat) (h2 : lat < 90) (h3 : -180 < lng) (h4 : lng ≤ 180) :
    |(cartesianToSpherical (geoTo3D lat lng 1)).x - lat| ≤ 1e-9 ∧
    |(cartesianToSpherical (geoTo3D lat lng 1)).y - lng| ≤ 1e-9 := by
  have hpi : (0:ℝ) < Real.pi := Real.pi_pos
  have hpine : Real.pi ≠ 0 := ne_of_gt hpi
  have hlat1 : -(Real.pi / 2) < lat * DEG_TO_RAD := by
    unfold DEG_TO_RAD; nlinarith
  have hlat2 : lat * DEG_TO_RAD < Real.pi / 2 := by
    unfold DEG_TO_RAD; nlinarith
  have hlng1 : -Real.pi < lng * DEG_TO_RAD := by
    unfold DEG_TO_RAD; nlinarith
  have hlng2 : lng * DEG_TO_RAD ≤ Real.pi := by
    unfold DEG_TO_RAD; nlinarith
  have hcos : 0 < Real.cos (lat * DEG_TO_RAD) :=
    Real.cos_pos_of_mem_Ioo ⟨hlat1, hlat2⟩
  have hs1 := Real.sin_sq_add_cos_sq (lat * DEG_TO_RAD)
  have hs2 := Real.sin_sq_add_cos_sq (lng * DEG_TO_RAD)
  have hv : (geoTo3D lat lng 1).length = 1 := by
    rw [Vec3.length_eq_one_iff, geoTo3D_eq]
    simp only
    linear_combination (Real.cos (lat * DEG_TO_RAD)) ^ 2 * hs2 + hs1
  have harg : atan2 (Real.sin (lng * DEG_TO_RAD) * Real.cos (lat * DEG_TO_RAD) * 1)
      (Real.cos (lng * DEG_TO_RAD) * Real.cos (lat * DEG_TO_RAD) * 1)
      = lng * DEG_TO_RAD := by
    unfold atan2
    have hc : (⟨Real.cos (lng * DEG_TO_RAD) * Real.cos (lat * DEG_TO_RAD) * 1,
               Real.sin (lng * DEG_TO_RAD) * Real.cos (lat * DEG_TO_RAD) * 1⟩ : ℂ)
        = (Real.cos (lat * DEG_TO_RAD) : ℝ) *
          (Complex.cos (lng * DEG_TO_RAD : ℝ) + Complex.sin (lng * DEG_TO_RAD : ℝ) * Complex.I) := by
      apply Complex.ext <;>
        dsimp only <;>
        simp only [Complex.mul_re, Complex.mul_im, Complex.add_re, Complex.add_im,
          Complex.ofReal_re, Complex.ofReal_im, Complex.I_re, Complex.I_im,
          Complex.cos_ofReal_re, Complex.cos_ofReal_im,
          Complex.sin_ofReal_re, Complex.sin_ofReal_im] <;>
        ring
    rw [hc]
    exact Complex.arg_mul_cos_add_sin_mul_I hcos ⟨hlng1, hlng2⟩
  have hexact : cartesianToSpherical (geoTo3D lat lng 1) = ⟨lat, lng⟩ := by
    simp only [cartesianToSpherical]
    rw [hv, if_neg one_ne_zero, geoTo3D_eq]
    dsimp only
    rw [harg]
    rw [show Real.sin (lat * DEG_TO_RAD) * 1 / 1 = Real.sin (lat * DEG_TO_RAD) by ring]
    rw [Real.arcsin_sin (le_of_lt hlat1) (le_of_lt hlat2)]
    have hlatdeg : lat * DEG_TO_RAD * RAD_TO_DEG = lat := by
      unfold DEG_TO_RAD RAD_TO_DEG; field_simp
    have hlngdeg : lng * DEG_TO_RAD * RAD_TO_DEG = lng := by
      unfold DEG_TO_RAD RAD_TO_DEG; field_simp
    rw [hlatdeg, hlngdeg]
    unfold normalizeLng
    rw [if_neg (not_lt.mpr h4)]
  rw [hexact]
  norm_num

/-- Boundary behavior of the exact-real model at the pole: with `lat = 90`
the embedded vector is exactly `(0, 1, 0)`, so the input longitude 90 is
lost and `atan2(0, 0) = 0` is recovered.  In IEEE double precision the
cosine of 90° is instead a nonzero residue (`Math.cos(90·DEG_TO_RAD)`
≈ 6.12e-17), whose sign pattern lets `atan2` recover the longitude to
machine accuracy — at the poles the round-trip's behavior is decided by
floating-point rounding, which this real-valued embedding does not model. -/
theorem cartesianToSpherical_geoTo3D_pole_exact_real :
    cartesianToSpherical (geoTo3D 90 90 1) = Vec2.mk 90 0 := by
  have hpi : (0:ℝ) < Real.pi := Real.pi_pos
  have h90 : (90:ℝ) * DEG_TO_RAD = Real.pi / 2 := by
    unfold DEG_TO_RAD; ring
  have hgeo : geoTo3D 90 90 1 = Vec3.mk 0 1 0 := by
    rw [geoTo3D_eq, h90]
    simp [Real.cos_pi_div_two, Real.sin_pi_div_two]
  have hlen : (Vec3.mk 0 1 0).length = 1 := by
    rw [Vec3.length_eq_one_iff]
    norm_num
  rw [hgeo]
  simp only [cartesianToSpherical]
  rw [hlen, if_neg one_ne_zero]
  have hzero : atan2 (0:ℝ) 0 = 0 := by
    unfold atan2
    rw [show (⟨0, 0⟩ : ℂ) = 0 from Complex.ext rfl rfl, Complex.arg_zero]
  rw [hzero]
  rw [show (1:ℝ) / 1 = 1 by norm_num, Real.arcsin_one]
  have h2 : Real.pi / 2 * RAD_TO_DEG = 90 := by
    unfold RAD_TO_DEG; field_simp; ring
  rw [h2]
  unfold normalizeLng
  norm_num

/-- A unit vector plus an orthogonal unit-scaled direction: the vector
`c·vv + s·(uu / ‖uu‖)` has length 1 when `vv` is unit, `uu ⊥ vv`,
`uu ≠ 0`, and `s² + c² = 1`. -/
theorem Vec3.unit_combination (vv uu : Vec3) (c s : ℝ)
    (hv2 : vv.x ^ 2 + vv.y ^ 2 + vv.z ^ 2 = 1)
    (hcs : s ^ 2 + c ^ 2 = 1)
    (hvu : vv.x * uu.x + vv.y * uu.y + vv.z * uu.z = 0)
    (hLne : uu.length ≠ 0) :
    ((vv.scale c).add ((uu.scale (1 / uu.length)).scale s)).length = 1 := by
  have hsum : uu.x ^ 2 + uu.y ^ 2 + uu.z ^ 2 = uu.length ^ 2 := (Vec3.sq_length uu).symm
  have hinvL : 1 / uu.length * uu.length = 1 := one_div_mul_cancel hLne
  rw [Vec3.length_eq_one_iff]
  unfold Vec3.add Vec3.scale
  dsimp only
  have hGL :
      ((vv.x * c + uu.x * (1 / uu.length) * s) ^ 2 +
       (vv.y * c + uu.y * (1 / uu.length) * s) ^ 2 +
       (vv.z * c + uu.z * (1 / uu.length) * s) ^ 2) * uu.length ^ 2
      = 1 * uu.length ^ 2 := by
    calc ((vv.x * c + uu.x * (1 / uu.length) * s) ^ 2 +
          (vv.y * c + uu.y * (1 / uu.length) * s) ^ 2 +
          (vv.z * c + uu.z * (1 / uu.length) * s) ^ 2) * uu.length ^ 2
        = (vv.x * c * uu.length + uu.x * (1 / uu.length * uu.length) * s) ^ 2 +
          (vv.y * c * uu.length + uu.y * (1 / uu.length * uu.length) * s) ^ 2 +
          (vv.z * c * uu.length + uu.z * (1 / uu.length * uu.length) * s) ^ 2 := by
          ring
      _ = 1 * uu.length ^ 2 := by
          rw [hinvL]
          linear_combination (c * uu.length) ^ 2 * hv2 + 2 * c * s * uu.length * hvu +
            s ^ 2 * hsum + uu.length ^ 2 * hcs
  exact mul_right_cancel₀ (pow_ne_zero 2 hLne) hGL

/-- Claim C5 (amended): for unit vectors `v`, `w` that are not exactly
antipodal (`v · w ≠ -1`) and `t ∈ [0, 1]`, the slerp result has unit
length within 1e-8 (exactly, in real arithmetic), in both the
near-parallel fallback branch and the general branch.  Exactly antipodal
inputs produce the zero vector at `t = 1/2` (see the counterexample). -/
theorem slerp_unit_length (v w : Vec3) (t : ℝ)
    (hv : v.length = 1) (hw : w.length = 1) (ht0 : 0 ≤ t) (ht1 : t ≤ 1)
    (hna : v.dot w ≠ -1) :
    |(slerp v w t).length - 1| ≤ 1e-8 := by
  have hv2 : v.x ^ 2 + v.y ^ 2 + v.z ^ 2 = 1 := (Vec3.length_eq_one_iff v).mp hv
  have hw2 : w.x ^ 2 + w.y ^ 2 + w.z ^ 2 = 1 := (Vec3.length_eq_one_iff w).mp hw
  have hdd : v.dot w = v.x * w.x + v.y * w.y + v.z * w.z := rfl
  have hd2 : (v.dot w) ^ 2 ≤ 1 := by
    rw [hdd]
    nlinarith [sq_nonneg (v.x * w.y - v.y * w.x), sq_nonneg (v.x * w.z - v.z * w.x),
      sq_nonneg (v.y * w.z - v.z * w.y), hv2, hw2]
  have hdle : v.dot w ≤ 1 := by nlinarith [hd2]
  have hdge : -1 ≤ v.dot w := by nlinarith [hd2]
  have hmain : (slerp v w t).length = 1 := by
    by_cases hbr : v.dot w > 0.9995
    · simp only [slerp]
      rw [if_pos hbr]
      apply Vec3.length_normalize
      have hsq : (Vec3.lerp v w t).length ^ 2
          = (1 - t) ^ 2 + t ^ 2 + 2 * t * (1 - t) * (v.dot w) := by
        rw [Vec3.sq_length]
        unfold Vec3.lerp
        dsimp only
        rw [hdd]
        linear_combination (1 - t) ^ 2 * hv2 + t ^ 2 * hw2
      have hpos : 0 < (Vec3.lerp v w t).length ^ 2 := by
        rw [hsq]
        nlinarith [sq_nonneg (1 - 2 * t),
          mul_nonneg (mul_nonneg ht0 (by linarith : (0:ℝ) ≤ 1 - t))
            (by linarith : (0:ℝ) ≤ v.dot w)]
      intro h
      rw [h] at hpos
      norm_num at hpos
    · have hble : v.dot w ≤ 0.9995 := not_lt.mp hbr
      have hdlt1 : v.dot w < 1 := lt_of_le_of_lt hble (by norm_num)
      have hdgt : -1 < v.dot w := lt_of_le_of_ne hdge (Ne.symm hna)
      have hclamp : max (-1) (min 1 (v.dot w)) = v.dot w := by
        rw [min_eq_right (le_of_lt hdlt1), max_eq_right hdge]
      simp only [slerp]
      rw [if_neg hbr, hclamp]
      have huL : (w.subtract (v.scale (v.dot w))).length ^ 2 = 1 - (v.dot w) ^ 2 := by
        rw [Vec3.sq_length]
        unfold Vec3.subtract Vec3.scale
        dsimp only
        linear_combination hw2 + (v.dot w) ^ 2 * hv2 + 2 * (v.dot w) * hdd
      have h1md : 0 < 1 - (v.dot w) ^ 2 := by nlinarith
      have hLne : (w.subtract (v.scale (v.dot w))).length ≠ 0 := by
        intro h
        rw [h] at huL
        norm_num at huL
        nlinarith
      have hvu : v.x * (w.subtract (v.scale (v.dot w))).x +
          v.y * (w.subtract (v.scale (v.dot w))).y +
          v.z * (w.subtract (v.scale (v.dot w))).z = 0 := by
        unfold Vec3.subtract Vec3.scale
        dsimp only
        linear_combination -hdd - (v.dot w) * hv2
      rw [Vec3.normalize_eq_scale _ hLne]
      exact Vec3.unit_combination v (w.subtract (v.scale (v.dot w)))
        (Real.cos (Real.arccos (v.dot w) * t)) (Real.sin (Real.arccos (v.dot w) * t))
        hv2 (Real.sin_sq_add_cos_sq _) hvu hLne
  rw [hmain]
  norm_num

/-- Counterexample to claim C5 as stated: for the exactly antipodal unit
vectors `(1,0,0)` and `(-1,0,0)` at `t = 1/2`, the general branch's
orthogonal-direction construction degenerates to the zero vector, so the
result has length 0, not 1. -/
theorem slerp_antipodal_counterexample :
    ((Vec3.mk 1 0 0).length = 1 ∧ (Vec3.mk (-1) 0 0).length = 1 ∧
     (0:ℝ) ≤ 1 / 2 ∧ (1 / 2 : ℝ) ≤ 1) ∧
    ¬ |(slerp (Vec3.mk 1 0 0) (Vec3.mk (-1) 0 0) (1 / 2)).length - 1| ≤ 1e-8 := by
  have h1 : (Vec3.mk 1 0 0).length = 1 := by rw [Vec3.length_eq_one_iff]; norm_num
  have h2 : (Vec3.mk (-1) 0 0).length = 1 := by rw [Vec3.length_eq_one_iff]; norm_num
  have hdot : (Vec3.mk 1 0 0).dot (Vec3.mk (-1) 0 0) = -1 := by
    unfold Vec3.dot
    norm_num
  have hslerp : slerp (Vec3.mk 1 0 0) (Vec3.mk (-1) 0 0) (1 / 2) = Vec3.mk 0 0 0 := by
    simp only [slerp]
    rw [hdot]
    rw [if_neg (by norm_num : ¬((-1:ℝ) > 0.9995))]
    rw [show max (-1:ℝ) (min 1 (-1)) = -1 by norm_num]
    rw [Real.arccos_neg_one]
    rw [show Real.pi * (1 / 2) = Real.pi / 2 by ring]
    rw [Real.cos_pi_div_two, Real.sin_pi_div_two]
    have hsub : (Vec3.mk (-1) 0 0).subtract ((Vec3.mk 1 0 0).scale (-1)) = Vec3.mk 0 0 0 := by
      unfold Vec3.subtract Vec3.scale
      dsimp only
      norm_num
    rw [hsub, Vec3.normalize_zero_vec]
    simp [Vec3.scale, Vec3.add]
  refine ⟨⟨h1, h2, by norm_num, by norm_num⟩, ?_⟩
  rw [hslerp, Vec3.length_zero_vec]
  norm_num

/-- Witness for C5: unit vectors `(1,0,0)` and `(0,0,1)` (the spec's own
example pair) at `t = 0`. -/
theorem slerp_unit_length_witness :
    ((Vec3.mk 1 0 0).length = 1 ∧ (Vec3.mk 0 0 1).length = 1 ∧
     (0:ℝ) ≤ 0 ∧ (0:ℝ) ≤ 1 ∧ (Vec3.mk 1 0 0).dot (Vec3.mk 0 0 1) ≠ -1) ∧
    |(slerp (Vec3.mk 1 0 0) (Vec3.mk 0 0 1) 0).length - 1| ≤ 1e-8 := by
  have h1 : (Vec3.mk 1 0 0).length = 1 := by rw [Vec3.length_eq_one_iff]; norm_num
  have h2 : (Vec3.mk 0 0 1).length = 1 := by rw [Vec3.length_eq_one_iff]; norm_num
  have h3 : (Vec3.mk 1 0 0).dot (Vec3.mk 0 0 1) ≠ -1 := by
    unfold Vec3.dot
    norm_num
  exact ⟨⟨h1, h2, le_refl 0, by norm_num, h3⟩,
    slerp_unit_length (Vec3.mk 1 0 0) (Vec3.mk 0 0 1) 0 h1 h2 (le_refl 0) (by norm_num) h3⟩

/-! ## Animator helper lemmas -/

theorem interpPosition_config_linear (cfg : CameraAnimationConfig) (e : ℝ)
    (h : cfg.useSphericalInterpolation = false) :
    (interpPosition cfg e).2 = cfg := by
  simp [interpPosition, h]

theorem interpTarget_config_linear (cfg : CameraAnimationConfig) (e : ℝ)
    (h : cfg.useSphericalInterpolation = false) :
    (interpTarget cfg e).2 = cfg := by
  rcases h1 : cfg.startTarget with _ | st <;> rcases h2 : cfg.endTarget with _ | et <;>
    simp [interpTarget, h1, h2, h]

theorem interpPosition_endPosition_spherical (cfg : CameraAnimationConfig) (e : ℝ)
    (h : cfg.useSphericalInterpolation = true) :
    (interpPosition cfg e).2.endPosition = cfg.endPosition.normalize := by
  simp [interpPosition, h]

theorem interpTarget_endPosition (cfg : CameraAnimationConfig) (e : ℝ) :
    (interpTarget cfg e).2.endPosition = cfg.endPosition := by
  by_cases hs : cfg.useSphericalInterpolation <;>
    rcases h1 : cfg.startTarget with _ | st <;> rcases h2 : cfg.endTarget with _ | et <;>
    simp [interpTarget, h1, h2, hs]

/-- A finished `update()` call clears the running flag. -/
theorem update_finished_not_animating (a : CameraAnimator) (now : ℝ)
    (hrun : a.isAnimating = true)
    (hprog : (jsMin1 (jsDiv (now - a.startTime) a.config.duration)).ge1 = true) :
    (a.update now).2.isAnimating = false := by
  simp [CameraAnimator.update, hrun, hprog]

/-- A finished `update()` call returns the post-call stored end
position/target. -/
theorem update_finished_returns_stored_end (a : CameraAnimator) (now : ℝ)
    (hrun : a.isAnimating = true)
    (hprog : (jsMin1 (jsDiv (now - a.startTime) a.config.duration)).ge1 = true) :
    (a.update now).1 =
      some ⟨(a.update now).2.config.endPosition, (a.update now).2.config.endTarget⟩ := by
  simp [CameraAnimator.update, hrun, hprog]

/-- The config stored after any running `update()` call is the config
after the two interpolation blocks. -/
theorem update_config_eq (a : CameraAnimator) (now : ℝ)
    (hrun : a.isAnimating = true) :
    (a.update now).2.config =
      (interpTarget
        (interpPosition a.config
          (a.ease (jsMin1 (jsDiv (now - a.startTime) a.config.duration)).val)).2
        (a.ease (jsMin1 (jsDiv (now - a.startTime) a.config.duration)).val)).2 := by
  by_cases hge : (jsMin1 (jsDiv (now - a.startTime) a.config.duration)).ge1 <;>
    simp [CameraAnimator.update, hrun, hge]

/-- A running animator's `update()` always returns a frame. -/
theorem update_isSome_of_animating (a : CameraAnimator) (now : ℝ)
    (hrun : a.isAnimating = true) :
    (a.update now).1.isSome = true := by
  by_cases hge : (jsMin1 (jsDiv (now - a.startTime) a.config.duration)).ge1 <;>
    simp [CameraAnimator.update, hrun, hge]

/-- A non-running animator's `update()` returns nothing and changes
nothing. -/
theorem update_not_animating (a : CameraAnimator) (now : ℝ)
    (hrun : a.isAnimating = false) :
    a.update now = (none, a) := by
  simp [CameraAnimator.update, hrun]

/-! ## Concrete evaluation lemmas -/

theorem length_0_0_2 : (Vec3.mk 0 0 2).length = 2 := by
  unfold Vec3.length
  dsimp only
  rw [show (0:ℝ) ^ 2 + 0 ^ 2 + 2 ^ 2 = 2 ^ 2 by norm_num]
  exact Real.sqrt_sq (by norm_num)

theorem normalize_0_0_2 : (Vec3.mk 0 0 2).normalize = Vec3.mk 0 0 1 := by
  unfold Vec3.normalize
  rw [length_0_0_2, if_neg (by norm_num)]
  unfold Vec3.scale
  dsimp only
  norm_num

theorem length_2_0_0 : (Vec3.mk 2 0 0).length = 2 := by
  unfold Vec3.length
  dsimp only
  rw [show (2:ℝ) ^ 2 + 0 ^ 2 + 0 ^ 2 = 2 ^ 2 by norm_num]
  exact Real.sqrt_sq (by norm_num)

theorem normalize_2_0_0 : (Vec3.mk 2 0 0).normalize = Vec3.mk 1 0 0 := by
  unfold Vec3.normalize
  rw [length_2_0_0, if_neg (by norm_num)]
  unfold Vec3.scale
  dsimp only
  norm_num

theorem jsDiv_1000 : jsDiv ((1000:ℝ) - 0) 1000 = JSNum.num 1 := by
  unfold jsDiv
  rw [if_neg (by norm_num : ¬(1000:ℝ) = 0)]
  norm_num

theorem ge1_num_one : (JSNum.num (1:ℝ)).ge1 = true := by
  simp [JSNum.ge1]

/-! ## Claims about the camera animation state machine -/

/-- Claim C1 (amended): a running `update()` call that observes
`progress ≥ 1` clears the running flag and returns the stored end
position/target.  With spherical interpolation disabled this is exactly
the configured end position/target; with it enabled, the call has just
normalized the stored end position in place, so the returned end position
is the unit-normalized configured one (equal to the constructed value only
when that was already unit length). -/
theorem update_finished_returns_end (a : CameraAnimator) (now : ℝ)
    (hrun : a.isAnimating = true)
    (hprog : (jsMin1 (jsDiv (now - a.startTime) a.config.duration)).ge1 = true) :
    ((a.update now).2.isAnimating = false) ∧
    ((a.update now).1 =
      some ⟨(a.update now).2.config.endPosition, (a.update now).2.config.endTarget⟩) ∧
    (a.config.useSphericalInterpolation = false →
      (a.update now).1 = some ⟨a.config.endPosition, a.config.endTarget⟩) ∧
    (a.config.useSphericalInterpolation = true →
      (a.update now).2.config.endPosition = a.config.endPosition.normalize) := by
  refine ⟨update_finished_not_animating a now hrun hprog,
    update_finished_returns_stored_end a now hrun hprog, ?_, ?_⟩
  · intro h
    rw [update_finished_returns_stored_end a now hrun hprog, update_config_eq a now hrun,
      interpPosition_config_linear _ _ h, interpTarget_config_linear _ _ h]
  · intro h
    rw [update_config_eq a now hrun, interpTarget_endPosition,
      interpPosition_endPosition_spherical _ _ h]

/-- Witness for C1: the spec's §8 linear animator finishing at
`elapsed = 1000`. -/
theorem update_finished_returns_end_witness :
    (linearSpecAnimator.isAnimating = true ∧
     (jsMin1 (jsDiv ((1000:ℝ) - linearSpecAnimator.startTime)
        linearSpecAnimator.config.duration)).ge1 = true) ∧
    ((linearSpecAnimator.update 1000).1 =
      some ⟨linearSpecAnimator.config.endPosition, linearSpecAnimator.config.endTarget⟩) := by
  have hrun : linearSpecAnimator.isAnimating = true := rfl
  have hprog : (jsMin1 (jsDiv ((1000:ℝ) - linearSpecAnimator.startTime)
      linearSpecAnimator.config.duration)).ge1 = true := by
    show (jsMin1 (jsDiv ((1000:ℝ) - 0) 1000)).ge1 = true
    rw [jsDiv_1000]
    simpa [jsMin1] using ge1_num_one
  exact ⟨⟨hrun, hprog⟩,
    (update_finished_returns_end linearSpecAnimator 1000 hrun hprog).2.2.1 rfl⟩

/-- Counterexample to claim C1 as stated: a finishing spherical-mode
`update()` call on `sphericalEndAnimator` (configured end position
`(0, 0, 2)`) returns position `(0, 0, 1)` — the end position after the
call's in-place normalization — not the constructed `(0, 0, 2)`. -/
theorem update_finished_spherical_counterexample :
    (jsMin1 (jsDiv ((1000:ℝ) - sphericalEndAnimator.startTime)
       sphericalEndAnimator.config.duration)).ge1 = true ∧
    (sphericalEndAnimator.update 1000).1 = some ⟨⟨0, 0, 1⟩, none⟩ ∧
    (Vec3.mk 0 0 1) ≠ (Vec3.mk 0 0 2) := by
  have hprog : (jsMin1 (jsDiv ((1000:ℝ) - sphericalEndAnimator.startTime)
      sphericalEndAnimator.config.duration)).ge1 = true := by
    show (jsMin1 (jsDiv ((1000:ℝ) - 0) 1000)).ge1 = true
    rw [jsDiv_1000]
    simpa [jsMin1] using ge1_num_one
  refine ⟨hprog, ?_, by simp [Vec3.mk.injEq]⟩
  have hrun : sphericalEndAnimator.isAnimating = true := rfl
  rw [update_finished_returns_stored_end _ _ hrun hprog, update_config_eq _ _ hrun,
    interpTarget_endPosition,
    interpPosition_endPosition_spherical _ _ (rfl :
      sphericalEndAnimator.config.useSphericalInterpolation = true)]
  have hT : (interpTarget
      (interpPosition sphericalEndAnimator.config
        (sphericalEndAnimator.ease (jsMin1 (jsDiv ((1000:ℝ) - sphericalEndAnimator.startTime)
          sphericalEndAnimator.config.duration)).val)).2
      (sphericalEndAnimator.ease (jsMin1 (jsDiv ((1000:ℝ) - sphericalEndAnimator.startTime)
        sphericalEndAnimator.config.duration)).val)).2.endTarget = none := by
    rcases hP : (interpPosition sphericalEndAnimator.config
        (sphericalEndAnimator.ease (jsMin1 (jsDiv ((1000:ℝ) - sphericalEndAnimator.startTime)
          sphericalEndAnimator.config.duration)).val)) with ⟨p, cfg1⟩
    have hst : cfg1.startTarget = none := by
      have := congrArg (fun q => q.2.startTarget) hP
      simpa [interpPosition] using this.symm
    have het : cfg1.endTarget = none := by
      have := congrArg (fun q => q.2.endTarget) hP
      simpa [interpPosition] using this.symm
    simp [interpTarget, hst, het]
  rw [hT, show sphericalEndAnimator.config.endPosition = Vec3.mk 0 0 2 from rfl,
    normalize_0_0_2]

theorem interpTarget_startPosition (cfg : CameraAnimationConfig) (e : ℝ) :
    (interpTarget cfg e).2.startPosition = cfg.startPosition := by
  by_cases hs : cfg.useSphericalInterpolation <;>
    rcases h1 : cfg.startTarget with _ | st <;> rcases h2 : cfg.endTarget with _ | et <;>
    simp [interpTarget, h1, h2, hs]

theorem interpPosition_startPosition_spherical (cfg : CameraAnimationConfig) (e : ℝ)
    (h : cfg.useSphericalInterpolation = true) :
    (interpPosition cfg e).2.startPosition = cfg.startPosition.normalize := by
  simp [interpPosition, h]

/-- A running, not-yet-finished `update()` call keeps the running flag and
stores the new elapsed time. -/
theorem update_not_finished (a : CameraAnimator) (now : ℝ)
    (hrun : a.isAnimating = true)
    (hprog : (jsMin1 (jsDiv (now - a.startTime) a.config.duration)).ge1 = false) :
    (a.update now).2.isAnimating = true ∧ (a.update now).2.currentTime = now - a.startTime := by
  simp [CameraAnimator.update, hrun, hprog]

/-- Claim C2 (amended): with spherical interpolation disabled, no
`start()`/`update()`/`stop()` call mutates the animation configuration.
(With it enabled, `update()` normalizes the stored start/end position —
and both targets when present — in place; see the counterexample.) -/
theorem config_immutable_linear (a : CameraAnimator) (now : ℝ)
    (h : a.config.useSphericalInterpolation = false) :
    (a.update now).2.config = a.config ∧
    (a.start now).config = a.config ∧ (a.stop).config = a.config := by
  refine ⟨?_, rfl, rfl⟩
  by_cases hrun : a.isAnimating
  · rw [update_config_eq a now hrun, interpPosition_config_linear _ _ h,
      interpTarget_config_linear _ _ h]
  · rw [update_not_animating a now (by simpa using hrun)]

/-- Witness for C2: the linear §8 animator updated at clock 5. -/
theorem config_immutable_linear_witness :
    linearSpecAnimator.config.useSphericalInterpolation = false ∧
    ((linearSpecAnimator.update 5).2.config = linearSpecAnimator.config ∧
     (linearSpecAnimator.start 5).config = linearSpecAnimator.config ∧
     (linearSpecAnimator.stop).config = linearSpecAnimator.config) :=
  ⟨rfl, config_immutable_linear linearSpecAnimator 5 rfl⟩

/-- Counterexample to claim C2 as stated: one spherical-mode `update()`
call replaces the stored start position `(2, 0, 0)` of
`sphericalStartAnimator` by its normalization `(1, 0, 0)`. -/
theorem spherical_update_mutates_config_counterexample :
    (sphericalStartAnimator.update 500).2.config.startPosition = Vec3.mk 1 0 0 ∧
    sphericalStartAnimator.config.startPosition = Vec3.mk 2 0 0 ∧
    (Vec3.mk 1 0 0) ≠ (Vec3.mk 2 0 0) := by
  refine ⟨?_, rfl, by simp [Vec3.mk.injEq]⟩
  have hrun : sphericalStartAnimator.isAnimating = true := rfl
  rw [update_config_eq _ _ hrun, interpTarget_startPosition,
    interpPosition_startPosition_spherical _ _ (rfl :
      sphericalStartAnimator.config.useSphericalInterpolation = true),
    show sphericalStartAnimator.config.startPosition = Vec3.mk 2 0 0 from rfl,
    normalize_2_0_0]

/-- Claim C6 (amended): an animator whose configured duration is exactly 0,
once started, completes on the first `update()` call made at any strictly
later clock value: JS division gives `progress = min(∞, 1) = 1`, the
running flag clears, and the stored end position/target is returned.
(Negative durations do NOT complete: progress stays negative; see the
counterexample.) -/
theorem zero_duration_first_update_completes (a : CameraAnimator) (t0 now : ℝ)
    (hd : a.config.duration = 0) (ht : t0 < now) :
    (((a.start t0).update now).2.isAnimating = false) ∧
    (((a.start t0).update now).1 =
      some ⟨((a.start t0).update now).2.config.endPosition,
            ((a.start t0).update now).2.config.endTarget⟩) := by
  have hrun : (a.start t0).isAnimating = true := rfl
  have hprog : (jsMin1 (jsDiv (now - (a.start t0).startTime)
      (a.start t0).config.duration)).ge1 = true := by
    rw [show (a.start t0).startTime = t0 from rfl,
      show (a.start t0).config = a.config from rfl, hd]
    unfold jsDiv
    rw [if_pos rfl, if_neg (sub_ne_zero.mpr ht.ne'), if_pos (sub_pos.mpr ht)]
    simp [jsMin1, JSNum.ge1]
  exact ⟨update_finished_not_animating _ _ hrun hprog,
    update_finished_returns_stored_end _ _ hrun hprog⟩

/-- Witness for C6: the zero-duration animator started at 0 and updated at
clock 7. -/
theorem zero_duration_first_update_completes_witness :
    (zeroDurationAnimator.config.duration = 0 ∧ (0:ℝ) < 7) ∧
    (((zeroDurationAnimator.start 0).update 7).2.isAnimating = false ∧
     ((zeroDurationAnimator.start 0).update 7).1 =
       some ⟨((zeroDurationAnimator.start 0).update 7).2.config.endPosition,
             ((zeroDurationAnimator.start 0).update 7).2.config.endTarget⟩) :=
  ⟨⟨rfl, by norm_num⟩,
   zero_duration_first_update_completes zeroDurationAnimator 0 7 rfl (by norm_num)⟩

/-- Counterexample to claim C6 as stated: the animator with duration -1,
started at 0, is still running after its first `update()` at clock 100,
and its progress is -100, not saturated at 1. -/
theorem negative_duration_counterexample :
    negDurationAnimator.config.duration < 0 ∧
    ((negDurationAnimator.start 0).update 100).2.isAnimating = true ∧
    ((negDurationAnimator.start 0).update 100).2.progress = JSNum.num (-100) := by
  have hdiv : jsDiv ((100:ℝ) - 0) (-1) = JSNum.num (-100) := by
    unfold jsDiv
    rw [if_neg (by norm_num : ¬(-1:ℝ) = 0),
      show ((100:ℝ) - 0) / (-1) = -100 by norm_num]
  have hmin : jsMin1 (JSNum.num (-100:ℝ)) = JSNum.num (-100) := by
    simp only [jsMin1]
    rw [min_eq_left (by norm_num : (-100:ℝ) ≤ 1)]
  have hrun : (negDurationAnimator.start 0).isAnimating = true := rfl
  have hprog : (jsMin1 (jsDiv ((100:ℝ) - (negDurationAnimator.start 0).startTime)
      (negDurationAnimator.start 0).config.duration)).ge1 = false := by
    rw [show ((100:ℝ) - (negDurationAnimator.start 0).startTime) = (100:ℝ) - 0 from rfl,
      show (negDurationAnimator.start 0).config.duration = -1 from rfl, hdiv, hmin]
    simp only [JSNum.ge1, decide_eq_false_iff_not]
    norm_num
  have hnf := update_not_finished _ _ hrun hprog
  have hcfg : ((negDurationAnimator.start 0).update 100).2.config
      = negDurationAnimator.config := by
    rw [update_config_eq _ _ hrun, interpPosition_config_linear _ _ rfl,
      interpTarget_config_linear _ _ rfl]
    rfl
  refine ⟨by rw [show negDurationAnimator.config.duration = -1 from rfl]; norm_num,
    hnf.1, ?_⟩
  unfold CameraAnimator.progress
  rw [hnf.1]
  simp only [if_true]
  rw [hnf.2, hcfg, show negDurationAnimator.config.duration = -1 from rfl,
    show (100:ℝ) - (negDurationAnimator.start 0).startTime = (100:ℝ) - 0 from rfl,
    hdiv, hmin]

/-- Claim C7 (amended): `cartesianToAzAlt` normalizes its argument in
place, so the call leaves a unit-length input unchanged; a non-unit input
is replaced by its normalization (see the counterexample).  The other
converters and `slerp` read but never write their arguments. -/
theorem cartesianToAzAlt_preserves_unit_input (v : Vec3) (h : v.length = 1) :
    (cartesianToAzAlt v).2 = v := by
  simp only [cartesianToAzAlt]
  unfold Vec3.normalize
  rw [if_pos (Or.inr h)]

/-- Witness for C7: the unit vector `(1, 0, 0)` is left unchanged. -/
theorem cartesianToAzAlt_preserves_unit_input_witness :
    (Vec3.mk 1 0 0).length = 1 ∧ (cartesianToAzAlt (Vec3.mk 1 0 0)).2 = Vec3.mk 1 0 0 := by
  have h : (Vec3.mk 1 0 0).length = 1 := by
    rw [Vec3.length_eq_one_iff]
    norm_num
  exact ⟨h, cartesianToAzAlt_preserves_unit_input _ h⟩

/-- Counterexample to claim C7 as stated: calling `cartesianToAzAlt` on
`(2, 0, 0)` changes the argument to `(1, 0, 0)`. -/
theorem cartesianToAzAlt_mutates_counterexample :
    (cartesianToAzAlt (Vec3.mk 2 0 0)).2 = Vec3.mk 1 0 0 ∧
    (Vec3.mk 1 0 0) ≠ (Vec3.mk 2 0 0) := by
  constructor
  · simp only [cartesianToAzAlt]
    exact normalize_2_0_0
  · simp [Vec3.mk.injEq]

/-! ## Chain helper lemmas -/

/-- One-step unfolding of the chain's `update()`. -/
theorem chain_update_eq (c : CameraAnimationChain) (now : ℝ) :
    c.update now =
      if h : c.currentIndex < c.animations.length then
        let current := c.animations.get ⟨c.currentIndex, h⟩
        let r := current.update now
        let c1 : CameraAnimationChain :=
          ⟨c.animations.set c.currentIndex r.2, c.currentIndex⟩
        match r.1 with
        | some s => (some s, c1)
        | none =>
          if h2 : c.currentIndex + 1 < c.animations.length then
            let nxt := c.animations.get ⟨c.currentIndex + 1, h2⟩
            let c2 : CameraAnimationChain :=
              ⟨(c.animations.set c.currentIndex r.2).set (c.currentIndex + 1) (nxt.start now),
               c.currentIndex + 1⟩
            c2.update now
          else (none, c1)
      else (none, c) := by
  rw [CameraAnimationChain.update]

/-- When the animator at the cursor is running, the chain's `update()`
returns that animator's frame and leaves the cursor in place. -/
theorem chain_update_current_running (c : CameraAnimationChain) (now : ℝ)
    (h : c.currentIndex < c.animations.length)
    (hrun : (c.animations.get ⟨c.currentIndex, h⟩).isAnimating = true) :
    (c.update now).1 = ((c.animations.get ⟨c.currentIndex, h⟩).update now).1 ∧
    (c.update now).2.currentIndex = c.currentIndex := by
  rw [chain_update_eq, dif_pos h]
  rcases hr : ((c.animations.get ⟨c.currentIndex, h⟩).update now).1 with _ | s
  · have hs := update_isSome_of_animating (c.animations.get ⟨c.currentIndex, h⟩) now hrun
    rw [hr] at hs
    simp at hs
  · simp only [hr]
    exact ⟨trivial, trivial⟩

/-- When the animator at the cursor has stopped running and is not last,
the chain's `update()` advances the cursor, starts the next animator, and
returns that animator's first frame. -/
theorem chain_update_step_advance (c : CameraAnimationChain) (now : ℝ)
    (hlt : c.currentIndex + 1 < c.animations.length)
    (hfin : (c.animations.get ⟨c.currentIndex, Nat.lt_of_succ_lt hlt⟩).isAnimating = false) :
    (c.update now).1 =
      (((c.animations.get ⟨c.currentIndex + 1, hlt⟩).start now).update now).1 ∧
    (c.update now).2.currentIndex = c.currentIndex + 1 ∧
    (c.update now).1.isSome = true := by
  have h : c.currentIndex < c.animations.length := Nat.lt_of_succ_lt hlt
  rw [chain_update_eq, dif_pos h]
  dsimp only
  rw [update_not_animating _ now hfin]
  dsimp only
  rw [dif_pos hlt]
  have hlen2 : ((c.animations.set c.currentIndex (c.animations.get ⟨c.currentIndex, h⟩)).set
      (c.currentIndex + 1)
      ((c.animations.get ⟨c.currentIndex + 1, hlt⟩).start now)).length
      = c.animations.length := by
    simp
  have h2' : (⟨(c.animations.set c.currentIndex (c.animations.get ⟨c.currentIndex, h⟩)).set
      (c.currentIndex + 1) ((c.animations.get ⟨c.currentIndex + 1, hlt⟩).start now),
      c.currentIndex + 1⟩ : CameraAnimationChain).currentIndex
      < (⟨(c.animations.set c.currentIndex (c.animations.get ⟨c.currentIndex, h⟩)).set
      (c.currentIndex + 1) ((c.animations.get ⟨c.currentIndex + 1, hlt⟩).start now),
      c.currentIndex + 1⟩ : CameraAnimationChain).animations.length := by
    simpa [hlen2] using hlt
  have hget2 : (⟨(c.animations.set c.currentIndex (c.animations.get ⟨c.currentIndex, h⟩)).set
      (c.currentIndex + 1) ((c.animations.get ⟨c.currentIndex + 1, hlt⟩).start now),
      c.currentIndex + 1⟩ : CameraAnimationChain).animations.get
        ⟨c.currentIndex + 1, h2'⟩
      = (c.animations.get ⟨c.currentIndex + 1, hlt⟩).start now := by
    simp [List.get_eq_getElem, List.getElem_set]
  obtain ⟨e1, e2⟩ := chain_update_current_running
    (⟨(c.animations.set c.currentIndex (c.animations.get ⟨c.currentIndex, h⟩)).set
      (c.currentIndex + 1) ((c.animations.get ⟨c.currentIndex + 1, hlt⟩).start now),
      c.currentIndex + 1⟩ : CameraAnimationChain) now h2'
    (by rw [hget2]; rfl)
  rw [hget2] at e1
  refine ⟨e1, e2, ?_⟩
  rw [e1]
  exact update_isSome_of_animating _ now rfl

/-- Claim C8: for a chain whose cursor animator has already delivered its
terminal value (running flag cleared) and is not the last segment,
`update()` advances the cursor, starts the newly current animator, and
returns that animator's first frame in the same call (a non-null result);
and a chain `update()` returns `null` only when the cursor is out of range
or sits on the last segment and that segment is no longer running. -/
theorem chain_update_segment_boundary (c : CameraAnimationChain) (now : ℝ) :
    (∀ a, c.currentIndex + 1 < c.animations.length →
      c.animations[c.currentIndex]? = some a → a.isAnimating = false →
      ((c.update now).1.isSome = true ∧
       (c.update now).2.currentIndex = c.currentIndex + 1 ∧
       ∀ b, c.animations[c.currentIndex + 1]? = some b →
         (c.update now).1 = ((b.start now).update now).1)) ∧
    ((c.update now).1 = none →
      c.animations.length ≤ c.currentIndex ∨
      (c.currentIndex = c.animations.length - 1 ∧
       ∀ a, c.animations[c.currentIndex]? = some a → a.isAnimating = false)) := by
  constructor
  · intro a hlt hget hfin
    have h : c.currentIndex < c.animations.length := Nat.lt_of_succ_lt hlt
    have hgeta : c.animations.get ⟨c.currentIndex, h⟩ = a := by
      rw [List.get_eq_getElem]
      rw [List.getElem?_eq_getElem h] at hget
      exact Option.some_inj.mp hget
    have hfin' : (c.animations.get
        ⟨c.currentIndex, Nat.lt_of_succ_lt hlt⟩).isAnimating = false := by
      rw [hgeta]
      exact hfin
    obtain ⟨e1, e2, e3⟩ := chain_update_step_advance c now hlt hfin'
    refine ⟨e3, e2, ?_⟩
    intro b hgetb
    have hgetb' : c.animations.get ⟨c.currentIndex + 1, hlt⟩ = b := by
      rw [List.get_eq_getElem]
      rw [List.getElem?_eq_getElem hlt] at hgetb
      exact Option.some_inj.mp hgetb
    rw [e1, hgetb']
  · intro hnone
    by_cases h : c.currentIndex < c.animations.length
    · by_cases hrun : (c.animations.get ⟨c.currentIndex, h⟩).isAnimating
      · exfalso
        obtain ⟨e1, _⟩ := chain_update_current_running c now h hrun
        have hs := update_isSome_of_animating (c.animations.get ⟨c.currentIndex, h⟩) now hrun
        rw [← e1, hnone] at hs
        simp at hs
      · have hfin : (c.animations.get ⟨c.currentIndex, h⟩).isAnimating = false := by
          simpa using hrun
        by_cases hlt : c.currentIndex + 1 < c.animations.length
        · exfalso
          have hfin' : (c.animations.get
              ⟨c.currentIndex, Nat.lt_of_succ_lt hlt⟩).isAnimating = false := hfin
          obtain ⟨_, _, e3⟩ := chain_update_step_advance c now hlt hfin'
          rw [hnone] at e3
          simp at e3
        · refine Or.inr ⟨by omega, ?_⟩
          intro a hget
          have hgeta : c.animations.get ⟨c.currentIndex, h⟩ = a := by
            rw [List.get_eq_getElem]
            rw [List.getElem?_eq_getElem h] at hget
            exact Option.some_inj.mp hget
          rw [← hgeta]
          exact hfin
    · exact Or.inl (by omega)

/-- Witness for C8: the two-segment chain with the first segment finished
advances to the second segment and returns a frame in a single call. -/
theorem chain_update_segment_boundary_witness :
    (twoSegmentChain.update 1000).1.isSome = true ∧
    (twoSegmentChain.update 1000).2.currentIndex = twoSegmentChain.currentIndex + 1 := by
  have hlt : twoSegmentChain.currentIndex + 1 < twoSegmentChain.animations.length := by
    simp [twoSegmentChain]
  have hget : twoSegmentChain.animations[twoSegmentChain.currentIndex]? =
      some ⟨⟨⟨0, 0, 10⟩, ⟨10, 0, 10⟩, none, none, 1000, false⟩, 0, 1000, false, fun r => r⟩ :=
    rfl
  obtain ⟨e1, e2, _⟩ :=
    (chain_update_segment_boundary twoSegmentChain 1000).1 _ hlt hget rfl
  exact ⟨e1, e2⟩
